import Mathlib

/-!
Shallow embedding of the VIC-II video chip emulator from `src/c64/src/vic.rs`
of the repository `bl-nero/atari-emulator`, together with the memory-interface
error types from `src/ya6502/src/memory.rs`.

Machine integers (`u8`, `u16`, `usize`) are modelled as `Nat`; the only
wrapping operation the code performs is `u8::rotate_right(1)` on
`graphics_mask`, which is modelled explicitly below.  Fallible operations
return their result through `Except`, and the mutable receiver `&mut self` is
modelled by explicit state passing: each stateful operation returns the
updated `Vic` alongside its result, matching the Rust semantics in which
`self` survives a failed call unchanged (all memory reads in
`background_tick` happen before any state mutation, and `tick` propagates a
failure with `?` before advancing its counters).
-/

namespace VicEmu

/-- `ReadError` from `ya6502::memory`: carries the offending address. -/
structure ReadError where
  address : Nat
deriving Repr, DecidableEq

/-- `WriteError` from `ya6502::memory`: carries the offending address and the
attempted value. -/
structure WriteError where
  address : Nat
  value : Nat
deriving Repr, DecidableEq

/-- A byte-addressable memory backend (the `Read` trait of `ya6502::memory`):
a partial map from addresses to bytes, `none` modelling an address the
backend cannot read. -/
abbrev Mem := Nat → Option Nat

/-- Reading a backend: a supported address yields its byte, an unsupported one
fails with a `ReadError` carrying that address (the behaviour of the concrete
`Read` implementations such as `Ram`). -/
def memRead (m : Mem) (address : Nat) : Except ReadError Nat :=
  match m address with
  | some value => .ok value
  | none => .error ⟨address⟩

/-- The state of the `Vic` struct (`src/c64/src/vic.rs`, lines 16–29), minus
the two memory handles, which are passed explicitly to each operation. -/
structure Vic where
  reg_border_color : Nat
  reg_background_color : Nat
  raster_counter : Nat
  x_counter : Nat
  graphics_column : Nat
  graphics_row : Nat
  character_offset : Nat
  graphics_mask : Nat
deriving Repr, DecidableEq

attribute [ext] Vic

/-- `Vic::new`: all counters zeroed, `graphics_mask` at the most significant
bit. -/
def Vic.new : Vic where
  reg_border_color := 0
  reg_background_color := 0
  raster_counter := 0
  x_counter := 0
  graphics_column := 0
  graphics_row := 0
  character_offset := 0
  graphics_mask := 0b10000000

/-- Geometry constants from `src/c64/src/vic.rs`, lines 160–186. -/
def LEFT_BORDER_START : Nat := 77

def LEFT_BORDER_WIDTH : Nat := 47

def DISPLAY_WINDOW_START : Nat := LEFT_BORDER_START + LEFT_BORDER_WIDTH

def DISPLAY_WINDOW_WIDTH : Nat := 320

def RIGHT_BORDER_START : Nat := DISPLAY_WINDOW_START + DISPLAY_WINDOW_WIDTH

def RASTER_LENGTH : Nat := 65 * 8

def TOP_BORDER_FIRST_LINE : Nat := 41

def DISPLAY_WINDOW_FIRST_LINE : Nat := 51

def DISPLAY_WINDOW_HEIGHT : Nat := 200

def BOTTOM_BORDER_FIRST_LINE : Nat := DISPLAY_WINDOW_FIRST_LINE + DISPLAY_WINDOW_HEIGHT

def TOTAL_HEIGHT : Nat := 262

/-- Local constant of `Vic::tick`. -/
def DISPLAY_WINDOW_LAST_LINE : Nat := BOTTOM_BORDER_FIRST_LINE - 1

/-- Local constant of `Vic::tick`. -/
def DISPLAY_WINDOW_END : Nat := RIGHT_BORDER_START - 1

/-- Register addresses from the `registers` module. -/
def BORDER_COLOR : Nat := 0xD020

def BACKGROUND_COLOR_0 : Nat := 0xD021

/-- `u8::rotate_right(1)` on a byte value: the least significant bit moves to
the most significant position. -/
def rotateRight1 (m : Nat) : Nat := m % 256 / 2 + m % 2 * 128

/-- The character-scan cursor advancement block of `Vic::background_tick`
(`src/c64/src/vic.rs`, lines 98–110): rotate `graphics_mask` and, when the
mask has wrapped to the most significant bit, carry into column, character
offset and graphics row. -/
def advanceGraphics (v : Vic) : Vic :=
  let v := { v with graphics_mask := rotateRight1 v.graphics_mask }
  if v.graphics_mask &&& 0b10000000 ≠ 0 then
    if v.graphics_column ≥ 39 then
      let v := { v with graphics_column := 0 }
      if v.character_offset ≥ 7 then
        { v with character_offset := 0, graphics_row := (v.graphics_row + 40) % (40 * 25) }
      else
        { v with character_offset := v.character_offset + 1 }
    else
      { v with graphics_column := v.graphics_column + 1 }
  else
    v

/-- `Vic::background_tick` (`src/c64/src/vic.rs`, lines 82–113): perform the
three memory fetches, resolve the pixel color, then advance the cursor.  All
reads precede the mutation, so a failing read leaves the state untouched. -/
def background_tick (gm cm : Mem) (v : Vic) : Vic × Except ReadError Nat :=
  match memRead gm (0x0400 + v.graphics_row + v.graphics_column) with
  | .error e => (v, .error e)
  | .ok character_index =>
    match memRead gm (0x1000 + character_index * 8 + v.character_offset) with
    | .error e => (v, .error e)
    | .ok character_pixel_row =>
      if character_pixel_row &&& v.graphics_mask ≠ 0 then
        match memRead cm (0xD800 + v.graphics_row + v.graphics_column) with
        | .error e => (v, .error e)
        | .ok color => (advanceGraphics v, .ok color)
      else
        (advanceGraphics v, .ok v.reg_background_color)

/-- The raster-position advancement block of `Vic::tick`
(`src/c64/src/vic.rs`, lines 70–77). -/
def advanceRaster (v : Vic) : Vic :=
  let v := { v with x_counter := v.x_counter + 1 }
  if v.x_counter ≥ RASTER_LENGTH then
    let v := { v with x_counter := 0, raster_counter := v.raster_counter + 1 }
    if v.raster_counter ≥ TOTAL_HEIGHT then { v with raster_counter := 0 } else v
  else
    v

/-- The video output of `Vic::tick`. -/
structure VicOutput where
  color : Nat
  x : Nat
  raster_line : Nat
deriving Repr, DecidableEq

/-- `Vic::tick` (`src/c64/src/vic.rs`, lines 53–79): classify the pre-advance
position, resolve the color (delegating to `background_tick` inside the
display window), emit the output for the pre-advance position, then advance
the raster counters. -/
def tick (gm cm : Mem) (v : Vic) : Vic × Except ReadError VicOutput :=
  match
    (if DISPLAY_WINDOW_FIRST_LINE ≤ v.raster_counter ∧
        v.raster_counter ≤ DISPLAY_WINDOW_LAST_LINE then
      if DISPLAY_WINDOW_START ≤ v.x_counter ∧ v.x_counter ≤ DISPLAY_WINDOW_END then
        background_tick gm cm v
      else
        (v, .ok v.reg_border_color)
    else
      (v, .ok v.reg_border_color) : Vic × Except ReadError Nat)
  with
  | (v', .error e) => (v', .error e)
  | (v', .ok color) =>
    (advanceRaster v',
      .ok { color := color, x := v'.x_counter, raster_line := v'.raster_counter })

/-- `impl Read for Vic` (`src/c64/src/vic.rs`, lines 130–134): every register
read fails, with the error carrying the address. -/
def Vic.read (_v : Vic) (address : Nat) : Except ReadError Nat :=
  .error ⟨address⟩

/-- `impl Write for Vic` (`src/c64/src/vic.rs`, lines 136–145): only the two
color registers are writable; any other address fails, with the state left
unchanged. -/
def Vic.write (v : Vic) (address value : Nat) : Vic × Except WriteError Unit :=
  if address = BORDER_COLOR then
    ({ v with reg_border_color := value }, .ok ())
  else if address = BACKGROUND_COLOR_0 then
    ({ v with reg_background_color := value }, .ok ())
  else
    (v, .error ⟨address, value⟩)

/-- `raster_line_to_screen_y` (`src/c64/src/vic.rs`, lines 150–152). -/
def raster_line_to_screen_y (index : Nat) : Nat :=
  (index + TOTAL_HEIGHT - TOP_BORDER_FIRST_LINE) % TOTAL_HEIGHT

/-- Run `n` ticks, requiring every one of them to succeed, and return the
final state. -/
def ticksOk (gm cm : Mem) : Nat → Vic → Except ReadError Vic
  | 0, v => .ok v
  | n + 1, v =>
    match tick gm cm v with
    | (v', .ok _) => ticksOk gm cm n v'
    | (_, .error e) => .error e

/-- Run `n` ticks, requiring every one of them to succeed, and return the
emitted colors in order together with the final state. -/
def ticksColors (gm cm : Mem) : Nat → Vic → Except ReadError (List Nat × Vic)
  | 0, v => .ok ([], v)
  | n + 1, v =>
    match tick gm cm v with
    | (v', .ok o) =>
      match ticksColors gm cm n v' with
      | .ok (cs, vf) => .ok (o.color :: cs, vf)
      | .error e => .error e
    | (_, .error e) => .error e

/-! ### Numeric values of the geometry constants -/

@[simp] lemma DISPLAY_WINDOW_FIRST_LINE_eq : DISPLAY_WINDOW_FIRST_LINE = 51 := rfl

@[simp] lemma DISPLAY_WINDOW_LAST_LINE_eq : DISPLAY_WINDOW_LAST_LINE = 250 := rfl

@[simp] lemma BOTTOM_BORDER_FIRST_LINE_eq : BOTTOM_BORDER_FIRST_LINE = 251 := rfl

@[simp] lemma DISPLAY_WINDOW_START_eq : DISPLAY_WINDOW_START = 124 := rfl

@[simp] lemma DISPLAY_WINDOW_END_eq : DISPLAY_WINDOW_END = 443 := rfl

@[simp] lemma RIGHT_BORDER_START_eq : RIGHT_BORDER_START = 444 := rfl

@[simp] lemma RASTER_LENGTH_eq : RASTER_LENGTH = 520 := rfl

@[simp] lemma TOTAL_HEIGHT_eq : TOTAL_HEIGHT = 262 := rfl

@[simp] lemma TOP_BORDER_FIRST_LINE_eq : TOP_BORDER_FIRST_LINE = 41 := rfl

/-! ### Projection lemmas for the two advancement blocks -/

@[simp] lemma advanceGraphics_x (v : Vic) :
    (advanceGraphics v).x_counter = v.x_counter := by
  simp only [advanceGraphics]; split_ifs <;> rfl

@[simp] lemma advanceGraphics_raster (v : Vic) :
    (advanceGraphics v).raster_counter = v.raster_counter := by
  simp only [advanceGraphics]; split_ifs <;> rfl

@[simp] lemma advanceGraphics_border (v : Vic) :
    (advanceGraphics v).reg_border_color = v.reg_border_color := by
  simp only [advanceGraphics]; split_ifs <;> rfl

@[simp] lemma advanceGraphics_background (v : Vic) :
    (advanceGraphics v).reg_background_color = v.reg_background_color := by
  simp only [advanceGraphics]; split_ifs <;> rfl

@[simp] lemma advanceRaster_column (v : Vic) :
    (advanceRaster v).graphics_column = v.graphics_column := by
  simp only [advanceRaster]; split_ifs <;> rfl

@[simp] lemma advanceRaster_row (v : Vic) :
    (advanceRaster v).graphics_row = v.graphics_row := by
  simp only [advanceRaster]; split_ifs <;> rfl

@[simp] lemma advanceRaster_offset (v : Vic) :
    (advanceRaster v).character_offset = v.character_offset := by
  simp only [advanceRaster]; split_ifs <;> rfl

@[simp] lemma advanceRaster_mask (v : Vic) :
    (advanceRaster v).graphics_mask = v.graphics_mask := by
  simp only [advanceRaster]; split_ifs <;> rfl

@[simp] lemma advanceRaster_border (v : Vic) :
    (advanceRaster v).reg_border_color = v.reg_border_color := by
  simp only [advanceRaster]; split_ifs <;> rfl

@[simp] lemma advanceRaster_background (v : Vic) :
    (advanceRaster v).reg_background_color = v.reg_background_color := by
  simp only [advanceRaster]; split_ifs <;> rfl

/-! ### Characterizations of `background_tick` and `tick` -/

lemma background_tick_ok_state (gm cm : Mem) (v v' : Vic) (c : Nat)
    (h : background_tick gm cm v = (v', .ok c)) : v' = advanceGraphics v := by
  unfold background_tick at h
  split at h
  · simp at h
  · split at h
    · simp at h
    · split at h
      · split at h
        · simp at h
        · exact (Prod.mk.injEq _ _ _ _ ▸ h).1.symm
      · exact (Prod.mk.injEq _ _ _ _ ▸ h).1.symm

lemma background_tick_err1 (gm cm : Mem) (v : Vic)
    (h : gm (0x0400 + v.graphics_row + v.graphics_column) = none) :
    background_tick gm cm v =
      (v, .error ⟨0x0400 + v.graphics_row + v.graphics_column⟩) := by
  simp [background_tick, memRead, h]

lemma background_tick_err2 (gm cm : Mem) (v : Vic) (ci : Nat)
    (h1 : gm (0x0400 + v.graphics_row + v.graphics_column) = some ci)
    (h2 : gm (0x1000 + ci * 8 + v.character_offset) = none) :
    background_tick gm cm v =
      (v, .error ⟨0x1000 + ci * 8 + v.character_offset⟩) := by
  simp [background_tick, memRead, h1, h2]

lemma background_tick_err3 (gm cm : Mem) (v : Vic) (ci row : Nat)
    (h1 : gm (0x0400 + v.graphics_row + v.graphics_column) = some ci)
    (h2 : gm (0x1000 + ci * 8 + v.character_offset) = some row)
    (h3 : row &&& v.graphics_mask ≠ 0)
    (h4 : cm (0xD800 + v.graphics_row + v.graphics_column) = none) :
    background_tick gm cm v =
      (v, .error ⟨0xD800 + v.graphics_row + v.graphics_column⟩) := by
  simp [background_tick, memRead, h1, h2, h3, h4]

lemma background_tick_ok_fg (gm cm : Mem) (v : Vic) (ci row c : Nat)
    (h1 : gm (0x0400 + v.graphics_row + v.graphics_column) = some ci)
    (h2 : gm (0x1000 + ci * 8 + v.character_offset) = some row)
    (h3 : row &&& v.graphics_mask ≠ 0)
    (h4 : cm (0xD800 + v.graphics_row + v.graphics_column) = some c) :
    background_tick gm cm v = (advanceGraphics v, .ok c) := by
  simp [background_tick, memRead, h1, h2, h3, h4]

lemma background_tick_ok_bg (gm cm : Mem) (v : Vic) (ci row : Nat)
    (h1 : gm (0x0400 + v.graphics_row + v.graphics_column) = some ci)
    (h2 : gm (0x1000 + ci * 8 + v.character_offset) = some row)
    (h3 : row &&& v.graphics_mask = 0) :
    background_tick gm cm v = (advanceGraphics v, .ok v.reg_background_color) := by
  simp [background_tick, memRead, h1, h2, h3]

lemma tick_eq_inWindow (gm cm : Mem) (v : Vic)
    (h1 : 51 ≤ v.raster_counter) (h2 : v.raster_counter < 251)
    (h3 : 124 ≤ v.x_counter) (h4 : v.x_counter < 444) :
    tick gm cm v =
      match background_tick gm cm v with
      | (v', .error e) => (v', .error e)
      | (v', .ok color) =>
        (advanceRaster v', .ok ⟨color, v'.x_counter, v'.raster_counter⟩) := by
  unfold tick
  rw [if_pos (by simp; omega), if_pos (by simp; omega)]

lemma tick_eq_outWindow (gm cm : Mem) (v : Vic)
    (h : ¬((51 ≤ v.raster_counter ∧ v.raster_counter < 251) ∧
           (124 ≤ v.x_counter ∧ v.x_counter < 444))) :
    tick gm cm v =
      (advanceRaster v, .ok ⟨v.reg_border_color, v.x_counter, v.raster_counter⟩) := by
  unfold tick
  by_cases hr : DISPLAY_WINDOW_FIRST_LINE ≤ v.raster_counter ∧
      v.raster_counter ≤ DISPLAY_WINDOW_LAST_LINE
  · rw [if_pos hr, if_neg]
    intro hx
    exact h ⟨by simp at hr; omega, by simp at hx; omega⟩
  · rw [if_neg hr]

/-! ### The spec-side cursor advancement (claim C2) -/

/-- Cursor advancement written from the words of the specification (§4.2,
steps 5–6): rotate `pixel_mask` right by one bit; exactly when it has just
wrapped back to the most significant bit, carry into column, then sub-row,
then character row. -/
def cursorAdvanceSpec (v : Vic) : Vic :=
  let m := rotateRight1 v.graphics_mask
  if Nat.testBit m 7 then
    if v.graphics_column < 39 then
      { v with graphics_mask := m, graphics_column := v.graphics_column + 1 }
    else if v.character_offset < 7 then
      { v with graphics_mask := m, graphics_column := 0,
               character_offset := v.character_offset + 1 }
    else
      { v with graphics_mask := m, graphics_column := 0, character_offset := 0,
               graphics_row := (v.graphics_row + 40) % 1000 }
  else
    { v with graphics_mask := m }

lemma and128_ne_iff_testBit (m : Nat) :
    (m &&& 0b10000000 ≠ 0) ↔ m.testBit 7 = true := by
  rw [show (0b10000000 : Nat) = 2 ^ 7 by norm_num, Nat.and_two_pow]
  cases h : m.testBit 7 <;> simp

lemma advanceGraphics_eq_spec (v : Vic) :
    advanceGraphics v = cursorAdvanceSpec v := by
  unfold advanceGraphics cursorAdvanceSpec
  by_cases hm : rotateRight1 v.graphics_mask &&& 0b10000000 ≠ 0
  · have hb := (and128_ne_iff_testBit _).mp hm
    by_cases hc : v.graphics_column ≥ 39
    · by_cases ho : v.character_offset ≥ 7
      · simp only [if_pos hm, if_pos hb, if_pos hc, if_pos ho,
          if_neg (show ¬v.graphics_column < 39 by omega),
          if_neg (show ¬v.character_offset < 7 by omega)]
      · simp only [if_pos hm, if_pos hb, if_pos hc, if_neg ho,
          if_neg (show ¬v.graphics_column < 39 by omega),
          if_pos (show v.character_offset < 7 by omega)]
    · simp only [if_pos hm, if_pos hb, if_neg hc,
        if_pos (show v.graphics_column < 39 by omega)]
  · have hb : Nat.testBit (rotateRight1 v.graphics_mask) 7 = false := by
      cases h : Nat.testBit (rotateRight1 v.graphics_mask) 7
      · rfl
      · exact absurd ((and128_ne_iff_testBit _).mpr h) hm
    simp only [if_neg hm, hb, Bool.false_eq_true, if_false]

/-! ### Resolution of a display-window pixel (claim C1) -/

lemma tick_resolve (gm cm : Mem) (v : Vic) (ci row c : Nat)
    (h1 : 51 ≤ v.raster_counter) (h2 : v.raster_counter < 251)
    (h3 : 124 ≤ v.x_counter) (h4 : v.x_counter < 444)
    (hci : gm (0x0400 + v.graphics_row + v.graphics_column) = some ci)
    (hrow : gm (0x1000 + ci * 8 + v.character_offset) = some row)
    (hc : cm (0xD800 + v.graphics_row + v.graphics_column) = some c) :
    tick gm cm v = (advanceRaster (advanceGraphics v),
      .ok ⟨if row &&& v.graphics_mask ≠ 0 then c else v.reg_background_color,
           v.x_counter, v.raster_counter⟩) := by
  rw [tick_eq_inWindow gm cm v h1 h2 h3 h4]
  by_cases hfg : row &&& v.graphics_mask ≠ 0
  · rw [background_tick_ok_fg gm cm v ci row c hci hrow hfg hc]
    simp [hfg]
  · rw [background_tick_ok_bg gm cm v ci row hci hrow (by omega)]
    simp [hfg]

lemma advanceGraphics_noWrap (v : Vic)
    (h : rotateRight1 v.graphics_mask &&& 128 = 0) :
    advanceGraphics v = { v with graphics_mask := rotateRight1 v.graphics_mask } := by
  simp only [advanceGraphics]
  rw [if_neg]
  simp [h]

lemma advanceRaster_noWrap (v : Vic) (h : v.x_counter + 1 < 520) :
    advanceRaster v = { v with x_counter := v.x_counter + 1 } := by
  simp only [advanceRaster]
  rw [if_neg]
  simp
  omega

lemma tick_step8 (gm cm : Mem) (v : Vic) (ci row c e m m' : Nat)
    (h1 : 51 ≤ v.raster_counter) (h2 : v.raster_counter < 251)
    (h3 : 124 ≤ e) (h4 : e ≤ 443)
    (hrot : rotateRight1 m = m') (hm : m' &&& 128 = 0)
    (hci : gm (0x0400 + v.graphics_row + v.graphics_column) = some ci)
    (hrow : gm (0x1000 + ci * 8 + v.character_offset) = some row)
    (hc : cm (0xD800 + v.graphics_row + v.graphics_column) = some c) :
    tick gm cm { v with x_counter := e, graphics_mask := m } =
      ({ v with x_counter := e + 1, graphics_mask := m' },
        .ok ⟨if row &&& m ≠ 0 then c else v.reg_background_color,
             e, v.raster_counter⟩) := by
  rw [tick_resolve gm cm { v with x_counter := e, graphics_mask := m } ci row c
    h1 h2 h3 (by simp; omega) hci hrow hc]
  rw [advanceGraphics_noWrap _ (by simpa [hrot] using hm)]
  rw [advanceRaster_noWrap _ (by simp; omega)]
  simp [hrot]

lemma ticksColors_zero (gm cm : Mem) (v : Vic) :
    ticksColors gm cm 0 v = .ok ([], v) := rfl

lemma ticksColors_succ (gm cm : Mem) (n : Nat) (v : Vic) :
    ticksColors gm cm (n + 1) v =
      match tick gm cm v with
      | (v', .ok o) =>
        match ticksColors gm cm n v' with
        | .ok (cs, vf) => .ok (o.color :: cs, vf)
        | .error e => .error e
      | (_, .error e) => .error e := rfl

lemma ticksColors_cons (gm cm : Mem) (n : Nat) (v v' vf : Vic) (o : VicOutput)
    (cs : List Nat) (h1 : tick gm cm v = (v', .ok o))
    (h2 : ticksColors gm cm n v' = .ok (cs, vf)) :
    ticksColors gm cm (n + 1) v = .ok (o.color :: cs, vf) := by
  rw [ticksColors_succ, h1]
  dsimp only
  rw [h2]

lemma and_bit7_ne (row : Nat) : (row &&& 128 ≠ 0) ↔ row.testBit 7 = true := by
  rw [show (128 : Nat) = 2 ^ 7 by norm_num, Nat.and_two_pow]
  cases h : row.testBit 7 <;> simp

lemma and_bit6_ne (row : Nat) : (row &&& 64 ≠ 0) ↔ row.testBit 6 = true := by
  rw [show (64 : Nat) = 2 ^ 6 by norm_num, Nat.and_two_pow]
  cases h : row.testBit 6 <;> simp

lemma and_bit5_ne (row : Nat) : (row &&& 32 ≠ 0) ↔ row.testBit 5 = true := by
  rw [show (32 : Nat) = 2 ^ 5 by norm_num, Nat.and_two_pow]
  cases h : row.testBit 5 <;> simp

lemma and_bit4_ne (row : Nat) : (row &&& 16 ≠ 0) ↔ row.testBit 4 = true := by
  rw [show (16 : Nat) = 2 ^ 4 by norm_num, Nat.and_two_pow]
  cases h : row.testBit 4 <;> simp

lemma and_bit3_ne (row : Nat) : (row &&& 8 ≠ 0) ↔ row.testBit 3 = true := by
  rw [show (8 : Nat) = 2 ^ 3 by norm_num, Nat.and_two_pow]
  cases h : row.testBit 3 <;> simp

lemma and_bit2_ne (row : Nat) : (row &&& 4 ≠ 0) ↔ row.testBit 2 = true := by
  rw [show (4 : Nat) = 2 ^ 2 by norm_num, Nat.and_two_pow]
  cases h : row.testBit 2 <;> simp

lemma and_bit1_ne (row : Nat) : (row &&& 2 ≠ 0) ↔ row.testBit 1 = true := by
  rw [show (2 : Nat) = 2 ^ 1 by norm_num, Nat.and_two_pow]
  cases h : row.testBit 1 <;> simp

lemma and_bit0_ne (row : Nat) : (row &&& 1 ≠ 0) ↔ row.testBit 0 = true := by
  rw [show (1 : Nat) = 2 ^ 0 by norm_num, Nat.and_two_pow]
  cases h : row.testBit 0 <;> simp

lemma ticksColors8_run (gm cm : Mem) (v : Vic) (ci row c e : Nat)
    (h1 : 51 ≤ v.raster_counter) (h2 : v.raster_counter < 251)
    (h3 : 124 ≤ e) (h4 : e + 8 ≤ 444)
    (hci : gm (0x0400 + v.graphics_row + v.graphics_column) = some ci)
    (hrow : gm (0x1000 + ci * 8 + v.character_offset) = some row)
    (hc : cm (0xD800 + v.graphics_row + v.graphics_column) = some c) :
    ∃ v', ticksColors gm cm 8 { v with x_counter := e, graphics_mask := 128 } =
      .ok ((List.range 8).map fun k =>
            if row.testBit (7 - k) then c else v.reg_background_color, v') := by
  have s0 := tick_step8 gm cm v ci row c e 128 64 h1 h2 (by omega) (by omega)
    rfl (by decide) hci hrow hc
  have s1 := tick_step8 gm cm v ci row c (e + 1) 64 32 h1 h2 (by omega) (by omega)
    rfl (by decide) hci hrow hc
  have s2 := tick_step8 gm cm v ci row c (e + 1 + 1) 32 16 h1 h2 (by omega) (by omega)
    rfl (by decide) hci hrow hc
  have s3 := tick_step8 gm cm v ci row c (e + 1 + 1 + 1) 16 8 h1 h2 (by omega)
    (by omega) rfl (by decide) hci hrow hc
  have s4 := tick_step8 gm cm v ci row c (e + 1 + 1 + 1 + 1) 8 4 h1 h2 (by omega)
    (by omega) rfl (by decide) hci hrow hc
  have s5 := tick_step8 gm cm v ci row c (e + 1 + 1 + 1 + 1 + 1) 4 2 h1 h2 (by omega)
    (by omega) rfl (by decide) hci hrow hc
  have s6 := tick_step8 gm cm v ci row c (e + 1 + 1 + 1 + 1 + 1 + 1) 2 1 h1 h2
    (by omega) (by omega) rfl (by decide) hci hrow hc
  have s7 := tick_resolve gm cm
    { v with x_counter := e + 1 + 1 + 1 + 1 + 1 + 1 + 1, graphics_mask := 1 }
    ci row c h1 h2 (by simp; omega) (by simp; omega) hci hrow hc
  have r1 := ticksColors_cons gm cm 0 _ _ _ _ _ s7 (ticksColors_zero gm cm _)
  have r2 := ticksColors_cons gm cm 1 _ _ _ _ _ s6 r1
  have r3 := ticksColors_cons gm cm 2 _ _ _ _ _ s5 r2
  have r4 := ticksColors_cons gm cm 3 _ _ _ _ _ s4 r3
  have r5 := ticksColors_cons gm cm 4 _ _ _ _ _ s3 r4
  have r6 := ticksColors_cons gm cm 5 _ _ _ _ _ s2 r5
  have r7 := ticksColors_cons gm cm 6 _ _ _ _ _ s1 r6
  have r8 := ticksColors_cons gm cm 7 _ _ _ _ _ s0 r7
  refine ⟨advanceRaster (advanceGraphics
    { v with x_counter := e + 1 + 1 + 1 + 1 + 1 + 1 + 1, graphics_mask := 1 }), ?_⟩
  rw [show (8 : Nat) = 7 + 1 from rfl, r8]
  dsimp only
  have hrange : (List.range 8).map
      (fun k => if row.testBit (7 - k) then c else v.reg_background_color) =
      [if row.testBit 7 then c else v.reg_background_color,
       if row.testBit 6 then c else v.reg_background_color,
       if row.testBit 5 then c else v.reg_background_color,
       if row.testBit 4 then c else v.reg_background_color,
       if row.testBit 3 then c else v.reg_background_color,
       if row.testBit 2 then c else v.reg_background_color,
       if row.testBit 1 then c else v.reg_background_color,
       if row.testBit 0 then c else v.reg_background_color] := rfl
  rw [hrange]
  simp only [and_bit7_ne, and_bit6_ne, and_bit5_ne, and_bit4_ne, and_bit3_ne,
    and_bit2_ne, and_bit1_ne, and_bit0_ne]

/-- C1: inside the display window the emitted color is computed exactly by
the character-mode resolution scheme — glyph index at
`0x0400 + graphics_row + graphics_column`, bitmap byte at
`0x1000 + character_index*8 + character_offset`, bit test against the one-hot
`pixel_mask`, per-cell color from `0xD800 + graphics_row + graphics_column`
on a set bit and `background_color_0` otherwise — and consequently the 8
display-window pixels of a glyph column equal, bit-for-bit from most to least
significant, the per-cell color where the bitmap bit is 1 and
`background_color_0` where it is 0. -/
theorem character_pixel_resolution (gm cm : Mem) (v : Vic) (ci row c : Nat)
    (hr1 : 51 ≤ v.raster_counter) (hr2 : v.raster_counter < 251)
    (hci : gm (0x0400 + v.graphics_row + v.graphics_column) = some ci)
    (hrow : gm (0x1000 + ci * 8 + v.character_offset) = some row)
    (hc : cm (0xD800 + v.graphics_row + v.graphics_column) = some c) :
    (124 ≤ v.x_counter → v.x_counter < 444 →
      ∃ v', tick gm cm v =
        (v', .ok ⟨if row &&& v.graphics_mask ≠ 0 then c else v.reg_background_color,
                  v.x_counter, v.raster_counter⟩)) ∧
    (v.graphics_mask = 128 → 124 ≤ v.x_counter → v.x_counter + 8 ≤ 444 →
      ∃ v', ticksColors gm cm 8 v =
        .ok ((List.range 8).map fun k =>
              if row.testBit (7 - k) then c else v.reg_background_color, v')) := by
  constructor
  · intro hx1 hx2
    exact ⟨_, tick_resolve gm cm v ci row c hr1 hr2 hx1 hx2 hci hrow hc⟩
  · intro hm hx1 hx8
    have hv : ({ v with x_counter := v.x_counter, graphics_mask := 128 } : Vic) = v := by
      ext <;> simp [hm]
    rw [← hv]
    exact ticksColors8_run gm cm v ci row c v.x_counter hr1 hr2 hx1 hx8 hci hrow hc

/-- Witness for C1: with glyph index 1 at `0x0400`, bitmap row `0b01010101`
at `0x1008`, cell color 10 at `0xD800` and background color 0, the 8 pixels
of the first glyph column alternate background and cell color. -/
theorem character_pixel_resolution_witness :
    ∃ v', ticksColors
        (fun a => if a = 0x0400 then some 1 else if a = 0x1008 then some 85 else some 0)
        (fun _ => some 10) 8
        { Vic.new with raster_counter := 51, x_counter := 124 } =
      .ok ((List.range 8).map fun k =>
            if (85 : Nat).testBit (7 - k) then 10 else 0, v') :=
  (character_pixel_resolution
    (fun a => if a = 0x0400 then some 1 else if a = 0x1008 then some 85 else some 0)
    (fun _ => some 10)
    { Vic.new with raster_counter := 51, x_counter := 124 }
    1 85 10 (by decide) (by decide) rfl rfl rfl).2 rfl (by decide) (by decide)

/-- C2: every successful `background_tick` advances the character-scan cursor
by exactly one step of the nested mixed-radix carry chain — rotate
`pixel_mask` right; exactly when it has just wrapped back to the most
significant bit, carry into `graphics_column`, then `character_offset`, then
`graphics_row = (graphics_row + 40) mod 1000` — and changes no other field. -/
theorem background_tick_advances_cursor (gm cm : Mem) (v v' : Vic) (c : Nat)
    (h : background_tick gm cm v = (v', .ok c)) : v' = cursorAdvanceSpec v :=
  (background_tick_ok_state gm cm v v' c h).trans (advanceGraphics_eq_spec v)

/-- Witness for C2: a successful resolution against all-zero memory advances
the freshly constructed cursor from mask `0b10000000` to mask `0b01000000`. -/
theorem background_tick_advances_cursor_witness :
    { Vic.new with graphics_mask := 64 } = cursorAdvanceSpec Vic.new :=
  background_tick_advances_cursor (fun _ => some 0) (fun _ => some 0) Vic.new
    { Vic.new with graphics_mask := 64 } 0 rfl

/-- C3: the character-mode pixel resolver is consulted iff the pre-advance
`raster_counter` is in `[51, 251)` and the pre-advance `x_counter` is in
`[124, 444)`: inside that window `tick`'s outcome is exactly that of
`background_tick` (output carrying the pre-advance position), and outside it
`tick` always succeeds with the `border_color` register value. -/
theorem tick_window_classification (gm cm : Mem) (v : Vic) :
    (((51 ≤ v.raster_counter ∧ v.raster_counter < 251) ∧
        (124 ≤ v.x_counter ∧ v.x_counter < 444)) →
      tick gm cm v =
        match background_tick gm cm v with
        | (v', .error e) => (v', .error e)
        | (v', .ok color) =>
          (advanceRaster v', .ok ⟨color, v.x_counter, v.raster_counter⟩)) ∧
    (¬((51 ≤ v.raster_counter ∧ v.raster_counter < 251) ∧
        (124 ≤ v.x_counter ∧ v.x_counter < 444)) →
      tick gm cm v =
        (advanceRaster v, .ok ⟨v.reg_border_color, v.x_counter, v.raster_counter⟩)) := by
  constructor
  · rintro ⟨⟨h1, h2⟩, h3, h4⟩
    rw [tick_eq_inWindow gm cm v h1 h2 h3 h4]
    rcases hb : background_tick gm cm v with ⟨v', r⟩
    cases r with
    | error e => rfl
    | ok color =>
      have hst := background_tick_ok_state gm cm v v' color hb
      subst hst
      simp
  · exact tick_eq_outWindow gm cm v

/-- Witness for C3: at the construction position `(0, 0)` — outside the
display window — the first tick emits the border color. -/
theorem tick_window_classification_witness :
    tick (fun _ => none) (fun _ => none) Vic.new =
      (advanceRaster Vic.new, .ok ⟨0, 0, 0⟩) :=
  (tick_window_classification (fun _ => none) (fun _ => none) Vic.new).2
    (by decide)

/-- C6: if any of the up-to-three memory reads of a display-window tick
fails, the whole tick fails with a read error carrying the offending address,
no pixel output is produced, and the state — cursor included — is returned
unchanged. -/
theorem tick_read_failure (gm cm : Mem) (v : Vic)
    (hr : 51 ≤ v.raster_counter ∧ v.raster_counter < 251)
    (hx : 124 ≤ v.x_counter ∧ v.x_counter < 444) :
    (gm (0x0400 + v.graphics_row + v.graphics_column) = none →
      tick gm cm v = (v, .error ⟨0x0400 + v.graphics_row + v.graphics_column⟩)) ∧
    (∀ ci, gm (0x0400 + v.graphics_row + v.graphics_column) = some ci →
      gm (0x1000 + ci * 8 + v.character_offset) = none →
      tick gm cm v = (v, .error ⟨0x1000 + ci * 8 + v.character_offset⟩)) ∧
    (∀ ci row, gm (0x0400 + v.graphics_row + v.graphics_column) = some ci →
      gm (0x1000 + ci * 8 + v.character_offset) = some row →
      row &&& v.graphics_mask ≠ 0 →
      cm (0xD800 + v.graphics_row + v.graphics_column) = none →
      tick gm cm v = (v, .error ⟨0xD800 + v.graphics_row + v.graphics_column⟩)) := by
  obtain ⟨h1, h2⟩ := hr
  obtain ⟨h3, h4⟩ := hx
  refine ⟨?_, ?_, ?_⟩
  · intro hnone
    rw [tick_eq_inWindow gm cm v h1 h2 h3 h4, background_tick_err1 gm cm v hnone]
  · intro ci hci hnone
    rw [tick_eq_inWindow gm cm v h1 h2 h3 h4,
      background_tick_err2 gm cm v ci hci hnone]
  · intro ci row hci hrow hfg hnone
    rw [tick_eq_inWindow gm cm v h1 h2 h3 h4,
      background_tick_err3 gm cm v ci row hci hrow hfg hnone]

/-- Witness for C6: with an unreadable graphics memory, the first
display-window tick fails with the error carrying address `0x0400`. -/
theorem tick_read_failure_witness :
    tick (fun _ => none) (fun _ => none)
        { Vic.new with raster_counter := 51, x_counter := 124 } =
      ({ Vic.new with raster_counter := 51, x_counter := 124 },
        .error ⟨0x0400⟩) :=
  (tick_read_failure (fun _ => none) (fun _ => none)
    { Vic.new with raster_counter := 51, x_counter := 124 }
    (by decide) (by decide)).1 rfl

/-- C10: whenever the pre-advance position lies outside the display window,
`tick` performs no memory reads — its result does not depend on the backends
at all — and always succeeds with the border color. -/
theorem tick_outside_window_no_reads (gm cm gm' cm' : Mem) (v : Vic)
    (h : ¬((51 ≤ v.raster_counter ∧ v.raster_counter < 251) ∧
           (124 ≤ v.x_counter ∧ v.x_counter < 444))) :
    tick gm cm v =
      (advanceRaster v, .ok ⟨v.reg_border_color, v.x_counter, v.raster_counter⟩) ∧
    tick gm cm v = tick gm' cm' v := by
  have e1 := tick_eq_outWindow gm cm v h
  have e2 := tick_eq_outWindow gm' cm' v h
  exact ⟨e1, e1.trans e2.symm⟩

/-- Witness for C10: at position `(0, 0)` the tick succeeds against a backend
that can read nothing, and agrees with the tick against an all-zero
backend. -/
theorem tick_outside_window_no_reads_witness :
    tick (fun _ => none) (fun _ => none) Vic.new =
        (advanceRaster Vic.new, .ok ⟨0, 0, 0⟩) ∧
      tick (fun _ => none) (fun _ => none) Vic.new =
        tick (fun _ => some 0) (fun _ => some 0) Vic.new :=
  tick_outside_window_no_reads (fun _ => none) (fun _ => none)
    (fun _ => some 0) (fun _ => some 0) Vic.new (by decide)

/-! ### Pure successful-tick step and position tracking (claims C4 and C5) -/

/-- The state transformation of one successful `tick`: advance the cursor iff
the pre-advance position lies in the display window, then advance the raster
counters. -/
def stepPure (v : Vic) : Vic :=
  if (51 ≤ v.raster_counter ∧ v.raster_counter < 251) ∧
      (124 ≤ v.x_counter ∧ v.x_counter < 444) then
    advanceRaster (advanceGraphics v)
  else
    advanceRaster v

lemma tick_ok_step (gm cm : Mem) (v v' : Vic) (o : VicOutput)
    (h : tick gm cm v = (v', .ok o)) :
    v' = stepPure v ∧ o.x = v.x_counter ∧ o.raster_line = v.raster_counter := by
  by_cases hw : (51 ≤ v.raster_counter ∧ v.raster_counter < 251) ∧
      (124 ≤ v.x_counter ∧ v.x_counter < 444)
  · obtain ⟨⟨h1, h2⟩, h3, h4⟩ := hw
    rw [tick_eq_inWindow gm cm v h1 h2 h3 h4] at h
    rcases hb : background_tick gm cm v with ⟨v1, r⟩
    rw [hb] at h
    cases r with
    | error e => simp at h
    | ok color =>
      have hst := background_tick_ok_state gm cm v v1 color hb
      subst hst
      dsimp only at h
      obtain ⟨hv, ho⟩ := Prod.mk.injEq _ _ _ _ ▸ h
      obtain ho := Except.ok.injEq _ _ ▸ ho
      refine ⟨?_, ?_, ?_⟩
      · rw [← hv, stepPure, if_pos ⟨⟨h1, h2⟩, h3, h4⟩]
      · rw [← ho]; simp
      · rw [← ho]; simp
  · rw [tick_eq_outWindow gm cm v hw] at h
    obtain ⟨hv, ho⟩ := Prod.mk.injEq _ _ _ _ ▸ h
    obtain ho := Except.ok.injEq _ _ ▸ ho
    refine ⟨?_, ?_, ?_⟩
    · rw [← hv, stepPure, if_neg hw]
    · rw [← ho]
    · rw [← ho]

lemma advanceRaster_x_eq (v : Vic) :
    (advanceRaster v).x_counter =
      if v.x_counter + 1 ≥ 520 then 0 else v.x_counter + 1 := by
  simp only [advanceRaster]
  split_ifs with h1 h2 <;> simp_all

lemma advanceRaster_rc_eq (v : Vic) :
    (advanceRaster v).raster_counter =
      if v.x_counter + 1 ≥ 520 then
        (if v.raster_counter + 1 ≥ 262 then 0 else v.raster_counter + 1)
      else v.raster_counter := by
  simp only [advanceRaster]
  split_ifs with h1 h2 <;> simp_all

lemma stepPure_x_eq (v : Vic) :
    (stepPure v).x_counter =
      if v.x_counter + 1 ≥ 520 then 0 else v.x_counter + 1 := by
  unfold stepPure
  by_cases hw : (51 ≤ v.raster_counter ∧ v.raster_counter < 251) ∧
      (124 ≤ v.x_counter ∧ v.x_counter < 444)
  · rw [if_pos hw, advanceRaster_x_eq]
    simp
  · rw [if_neg hw, advanceRaster_x_eq]

lemma stepPure_rc_eq (v : Vic) :
    (stepPure v).raster_counter =
      if v.x_counter + 1 ≥ 520 then
        (if v.raster_counter + 1 ≥ 262 then 0 else v.raster_counter + 1)
      else v.raster_counter := by
  unfold stepPure
  by_cases hw : (51 ≤ v.raster_counter ∧ v.raster_counter < 251) ∧
      (124 ≤ v.x_counter ∧ v.x_counter < 444)
  · rw [if_pos hw, advanceRaster_rc_eq]
    simp
  · rw [if_neg hw, advanceRaster_rc_eq]

/-- The linear raster-position index `raster_counter * RASTER_LENGTH +
x_counter`. -/
def posIdx (v : Vic) : Nat := v.raster_counter * 520 + v.x_counter

lemma stepPure_posIdx (v : Vic) (hx : v.x_counter < 520) (hr : v.raster_counter < 262) :
    (stepPure v).x_counter < 520 ∧ (stepPure v).raster_counter < 262 ∧
    posIdx (stepPure v) % 136240 = (posIdx v + 1) % 136240 := by
  unfold posIdx
  rw [stepPure_x_eq, stepPure_rc_eq]
  split_ifs with h1 h2 <;> omega

lemma ticksOk_succ (gm cm : Mem) (n : Nat) (v : Vic) :
    ticksOk gm cm (n + 1) v =
      match tick gm cm v with
      | (v', .ok _) => ticksOk gm cm n v'
      | (_, .error e) => .error e := rfl

lemma ticksOk_pos (gm cm : Mem) : ∀ (n : Nat) (v vf : Vic),
    v.x_counter < 520 → v.raster_counter < 262 →
    ticksOk gm cm n v = .ok vf →
    vf.x_counter < 520 ∧ vf.raster_counter < 262 ∧
    posIdx vf % 136240 = (posIdx v + n) % 136240 := by
  intro n
  induction n with
  | zero =>
    intro v vf hx hr h
    obtain rfl : v = vf := Except.ok.injEq _ _ ▸ h
    exact ⟨hx, hr, by simp⟩
  | succ n ih =>
    intro v vf hx hr h
    rw [ticksOk_succ] at h
    rcases ht : tick gm cm v with ⟨v', r⟩
    rw [ht] at h
    cases r with
    | error e => simp at h
    | ok o =>
      dsimp only at h
      obtain ⟨hv', -, -⟩ := tick_ok_step gm cm v v' o ht
      subst hv'
      obtain ⟨hx', hr', hstep⟩ := stepPure_posIdx v hx hr
      obtain ⟨hfx, hfr, hind⟩ := ih (stepPure v) vf hx' hr' h
      refine ⟨hfx, hfr, ?_⟩
      omega

/-! ### The cursor cycle: 8 × 40 × 8 × 25 = 64000 steps (claim C5) -/

/-- The effect of 8 consecutive cursor advancements starting at the most
significant mask bit: one column advancement with its carries. -/
def colStep (v : Vic) : Vic :=
  if v.graphics_column ≥ 39 then
    if v.character_offset ≥ 7 then
      { v with graphics_column := 0, character_offset := 0,
               graphics_row := (v.graphics_row + 40) % 1000 }
    else
      { v with graphics_column := 0, character_offset := v.character_offset + 1 }
  else
    { v with graphics_column := v.graphics_column + 1 }

/-- The effect of 40 column advancements from column 0: one character-offset
advancement with its carry. -/
def subStep (v : Vic) : Vic :=
  if v.character_offset ≥ 7 then
    { v with character_offset := 0, graphics_row := (v.graphics_row + 40) % 1000 }
  else
    { v with character_offset := v.character_offset + 1 }

/-- The effect of 8 offset advancements from offset 0: one row advancement. -/
def rowStep (v : Vic) : Vic :=
  { v with graphics_row := (v.graphics_row + 40) % 1000 }

@[simp] lemma colStep_mask (v : Vic) :
    (colStep v).graphics_mask = v.graphics_mask := by
  simp only [colStep]; split_ifs <;> rfl

@[simp] lemma subStep_column (v : Vic) :
    (subStep v).graphics_column = v.graphics_column := by
  simp only [subStep]; split_ifs <;> rfl

@[simp] lemma rowStep_offset (v : Vic) :
    (rowStep v).character_offset = v.character_offset := rfl

lemma advanceGraphics_wrapStep (v : Vic) (h : v.graphics_mask = 128) :
    advanceGraphics { v with graphics_mask := 1 } = colStep v := by
  simp only [advanceGraphics, colStep]
  norm_num [rotateRight1]
  split_ifs with h1 h2
  · ext <;> simp [h]
  · ext <;> simp [h]
  · ext <;> simp [h]

lemma advG8 (v : Vic) (h : v.graphics_mask = 128) :
    advanceGraphics^[8] v = colStep v := by
  have e1 : advanceGraphics v = { v with graphics_mask := 64 } := by
    rw [advanceGraphics_noWrap v (by rw [h]; decide)]
    norm_num [rotateRight1, h]
  have e2 : advanceGraphics { v with graphics_mask := (64 : Nat) } =
      { v with graphics_mask := 32 } := by
    rw [advanceGraphics_noWrap _ (by simp [rotateRight1]; try decide)]
    norm_num [rotateRight1]
  have e3 : advanceGraphics { v with graphics_mask := (32 : Nat) } =
      { v with graphics_mask := 16 } := by
    rw [advanceGraphics_noWrap _ (by simp [rotateRight1]; try decide)]
    norm_num [rotateRight1]
  have e4 : advanceGraphics { v with graphics_mask := (16 : Nat) } =
      { v with graphics_mask := 8 } := by
    rw [advanceGraphics_noWrap _ (by simp [rotateRight1]; try decide)]
    norm_num [rotateRight1]
  have e5 : advanceGraphics { v with graphics_mask := (8 : Nat) } =
      { v with graphics_mask := 4 } := by
    rw [advanceGraphics_noWrap _ (by simp [rotateRight1]; try decide)]
    norm_num [rotateRight1]
  have e6 : advanceGraphics { v with graphics_mask := (4 : Nat) } =
      { v with graphics_mask := 2 } := by
    rw [advanceGraphics_noWrap _ (by simp [rotateRight1]; try decide)]
    norm_num [rotateRight1]
  have e7 : advanceGraphics { v with graphics_mask := (2 : Nat) } =
      { v with graphics_mask := 1 } := by
    rw [advanceGraphics_noWrap _ (by simp [rotateRight1]; try decide)]
    norm_num [rotateRight1]
  have e8 := advanceGraphics_wrapStep v h
  rw [show (8 : Nat) = 7 + 1 from rfl, Function.iterate_succ_apply, e1]
  rw [show (7 : Nat) = 6 + 1 from rfl, Function.iterate_succ_apply, e2]
  rw [show (6 : Nat) = 5 + 1 from rfl, Function.iterate_succ_apply, e3]
  rw [show (5 : Nat) = 4 + 1 from rfl, Function.iterate_succ_apply, e4]
  rw [show (4 : Nat) = 3 + 1 from rfl, Function.iterate_succ_apply, e5]
  rw [show (3 : Nat) = 2 + 1 from rfl, Function.iterate_succ_apply, e6]
  rw [show (2 : Nat) = 1 + 1 from rfl, Function.iterate_succ_apply, e7]
  rw [show (1 : Nat) = 0 + 1 from rfl, Function.iterate_succ_apply, e8]
  rfl

lemma advG_comp1 : ∀ (n : Nat) (v : Vic), v.graphics_mask = 128 →
    advanceGraphics^[8 * n] v = colStep^[n] v := by
  intro n
  induction n with
  | zero => intro v _; rfl
  | succ n ih =>
    intro v h
    rw [show 8 * (n + 1) = 8 * n + 8 by ring, Function.iterate_add_apply,
      advG8 v h, ih (colStep v) (by simp [h]), ← Function.iterate_succ_apply]

lemma colIter : ∀ (k : Nat) (v : Vic), v.graphics_column = 0 → k ≤ 39 →
    colStep^[k] v = { v with graphics_column := k } := by
  intro k
  induction k with
  | zero => intro v h _; ext <;> simp [h]
  | succ k ih =>
    intro v h hk
    rw [Function.iterate_succ_apply', ih v h (by omega)]
    simp only [colStep]
    rw [if_neg (by simp; omega)]

lemma colStep40 (v : Vic) (h : v.graphics_column = 0) :
    colStep^[40] v = subStep v := by
  rw [show (40 : Nat) = 39 + 1 from rfl, Function.iterate_succ_apply',
    colIter 39 v h (by omega)]
  simp only [colStep, subStep]
  rw [if_pos (by simp)]
  by_cases ho : v.character_offset ≥ 7
  · rw [if_pos (by simpa using ho), if_pos ho]
    ext <;> simp [h]
  · rw [if_neg (by simpa using ho), if_neg ho]
    ext <;> simp [h]

lemma advG_comp2 : ∀ (n : Nat) (v : Vic), v.graphics_column = 0 →
    colStep^[40 * n] v = subStep^[n] v := by
  intro n
  induction n with
  | zero => intro v _; rfl
  | succ n ih =>
    intro v h
    rw [show 40 * (n + 1) = 40 * n + 40 by ring, Function.iterate_add_apply,
      colStep40 v h, ih (subStep v) (by simp [h]), ← Function.iterate_succ_apply]

lemma subIter : ∀ (k : Nat) (v : Vic), v.character_offset = 0 → k ≤ 7 →
    subStep^[k] v = { v with character_offset := k } := by
  intro k
  induction k with
  | zero => intro v h _; ext <;> simp [h]
  | succ k ih =>
    intro v h hk
    rw [Function.iterate_succ_apply', ih v h (by omega)]
    simp only [subStep]
    rw [if_neg (by simp; omega)]

lemma subStep8 (v : Vic) (h : v.character_offset = 0) :
    subStep^[8] v = rowStep v := by
  rw [show (8 : Nat) = 7 + 1 from rfl, Function.iterate_succ_apply',
    subIter 7 v h (by omega)]
  simp only [subStep, rowStep]
  rw [if_pos (by simp)]
  ext <;> simp [h]

lemma advG_comp3 : ∀ (n : Nat) (v : Vic), v.character_offset = 0 →
    subStep^[8 * n] v = rowStep^[n] v := by
  intro n
  induction n with
  | zero => intro v _; rfl
  | succ n ih =>
    intro n_1
    intro h
    rw [show 8 * (n + 1) = 8 * n + 8 by ring, Function.iterate_add_apply,
      subStep8 n_1 h, ih (rowStep n_1) (by simp [h]), ← Function.iterate_succ_apply]

lemma rowIter : ∀ (k : Nat) (v : Vic), v.graphics_row = 0 → k ≤ 25 →
    rowStep^[k] v = { v with graphics_row := 40 * k % 1000 } := by
  intro k
  induction k with
  | zero => intro v h _; ext <;> simp [h]
  | succ k ih =>
    intro v h hk
    rw [Function.iterate_succ_apply', ih v h (by omega)]
    simp only [rowStep]
    ext <;> simp
    omega

lemma rowStep25 (v : Vic) (h : v.graphics_row = 0) : rowStep^[25] v = v := by
  rw [rowIter 25 v h (le_refl 25)]
  ext <;> simp [h]

/-- A full frame's worth of cursor advancements returns the freshly
constructed cursor to itself. -/
lemma cursorCycle : advanceGraphics^[64000] Vic.new = Vic.new := by
  rw [show (64000 : Nat) = 8 * 8000 by norm_num, advG_comp1 8000 Vic.new rfl]
  rw [show (8000 : Nat) = 40 * 200 by norm_num, advG_comp2 200 Vic.new rfl]
  rw [show (200 : Nat) = 8 * 25 by norm_num, advG_comp3 25 Vic.new rfl]
  exact rowStep25 Vic.new rfl

/-! ### Iterated projections and commutation of the two advancement blocks -/

@[simp] lemma advG_iter_rc (n : Nat) : ∀ v : Vic,
    (advanceGraphics^[n] v).raster_counter = v.raster_counter := by
  induction n with
  | zero => intro v; rfl
  | succ n ih => intro v; rw [Function.iterate_succ_apply, ih]; simp

@[simp] lemma advG_iter_x (n : Nat) : ∀ v : Vic,
    (advanceGraphics^[n] v).x_counter = v.x_counter := by
  induction n with
  | zero => intro v; rfl
  | succ n ih => intro v; rw [Function.iterate_succ_apply, ih]; simp

@[simp] lemma advG_iter_border (n : Nat) : ∀ v : Vic,
    (advanceGraphics^[n] v).reg_border_color = v.reg_border_color := by
  induction n with
  | zero => intro v; rfl
  | succ n ih => intro v; rw [Function.iterate_succ_apply, ih]; simp

@[simp] lemma advG_iter_background (n : Nat) : ∀ v : Vic,
    (advanceGraphics^[n] v).reg_background_color = v.reg_background_color := by
  induction n with
  | zero => intro v; rfl
  | succ n ih => intro v; rw [Function.iterate_succ_apply, ih]; simp

lemma advanceGraphics_set_pos (v : Vic) (r a : Nat) :
    advanceGraphics { v with raster_counter := r, x_counter := a } =
      { advanceGraphics v with raster_counter := r, x_counter := a } := by
  simp only [advanceGraphics]
  split_ifs <;> rfl

lemma advanceRaster_wrapX (v : Vic) (h : v.x_counter + 1 = 520)
    (h2 : v.raster_counter + 1 < 262) :
    advanceRaster v = { v with raster_counter := v.raster_counter + 1, x_counter := 0 } := by
  simp only [advanceRaster]
  rw [if_pos (by simp; omega), if_neg (by simp; omega)]

lemma advanceRaster_wrapXY (v : Vic) (h : v.x_counter + 1 = 520)
    (h2 : v.raster_counter + 1 = 262) :
    advanceRaster v = { v with raster_counter := 0, x_counter := 0 } := by
  simp only [advanceRaster]
  rw [if_pos (by simp; omega), if_pos (by simp; omega)]

/-! ### One raster line of pure steps -/

lemma stepPure_line_win (w : Vic) (r : Nat) (hr1 : 51 ≤ r) (hr2 : r < 251) :
    ∀ t, t ≤ 519 →
      stepPure^[t] { w with raster_counter := r, x_counter := 0 } =
        { advanceGraphics^[min t 444 - min t 124] w with
          raster_counter := r, x_counter := t } := by
  intro t
  induction t with
  | zero =>
    intro _
    norm_num
  | succ t ih =>
    intro ht
    rw [Function.iterate_succ_apply', ih (by omega)]
    by_cases hx : 124 ≤ t ∧ t < 444
    · rw [stepPure, if_pos (by simp; omega)]
      rw [advanceGraphics_set_pos,
        ← Function.iterate_succ_apply' advanceGraphics (min t 444 - min t 124) w]
      rw [advanceRaster_noWrap _ (by simp; omega)]
      have hk : min (t + 1) 444 - min (t + 1) 124 = (min t 444 - min t 124) + 1 := by
        omega
      rw [hk]
    · rw [stepPure, if_neg (by simp; omega)]
      rw [advanceRaster_noWrap _ (by simp; omega)]
      have hk : min (t + 1) 444 - min (t + 1) 124 = min t 444 - min t 124 := by omega
      rw [hk]

lemma stepPure_line_out (w : Vic) (r : Nat) (hr : ¬(51 ≤ r ∧ r < 251)) :
    ∀ t, t ≤ 519 →
      stepPure^[t] { w with raster_counter := r, x_counter := 0 } =
        { w with raster_counter := r, x_counter := t } := by
  intro t
  induction t with
  | zero => intro _; rfl
  | succ t ih =>
    intro ht
    rw [Function.iterate_succ_apply', ih (by omega)]
    rw [stepPure, if_neg (by simp; omega)]
    rw [advanceRaster_noWrap _ (by simp; omega)]

lemma stepPure_line (w : Vic) (r : Nat) (hrc : r < 262) :
    stepPure^[520] { w with raster_counter := r, x_counter := 0 } =
      { (if 51 ≤ r ∧ r < 251 then advanceGraphics^[320] w else w) with
        raster_counter := (r + 1) % 262, x_counter := 0 } := by
  rw [show (520 : Nat) = 519 + 1 from rfl, Function.iterate_succ_apply']
  by_cases hw : 51 ≤ r ∧ r < 251
  · rw [stepPure_line_win w r hw.1 hw.2 519 (by omega), if_pos hw]
    have hmin : min 519 444 - min 519 124 = 320 := by norm_num
    rw [hmin, stepPure, if_neg (by simp)]
    by_cases h2 : r + 1 < 262
    · rw [advanceRaster_wrapX _ (by simp) (by simp; omega)]
      ext <;> simp only [] <;> omega
    · rw [advanceRaster_wrapXY _ (by simp) (by simp; omega)]
      have hr261 : r = 261 := by omega
      subst hr261
      ext <;> simp only []
  · rw [stepPure_line_out w r hw 519 (by omega), if_neg hw]
    rw [stepPure, if_neg (by simp)]
    by_cases h2 : r + 1 < 262
    · rw [advanceRaster_wrapX _ (by simp) (by simp; omega)]
      ext <;> simp only [] <;> omega
    · rw [advanceRaster_wrapXY _ (by simp) (by simp; omega)]
      have hr261 : r = 261 := by omega
      subst hr261
      ext <;> simp only []

/-! ### A full frame of pure steps -/

lemma stepPure_frame : ∀ k : Nat, k ≤ 262 →
    stepPure^[520 * k] Vic.new =
      { advanceGraphics^[320 * (min k 251 - min k 51)] Vic.new with
        raster_counter := k % 262, x_counter := 0 } := by
  intro k
  induction k with
  | zero =>
    intro _
    ext <;> simp [Vic.new]
  | succ k ih =>
    intro hk
    rw [show 520 * (k + 1) = 520 + 520 * k by ring, Function.iterate_add_apply,
      ih (by omega)]
    have hk262 : k % 262 = k := Nat.mod_eq_of_lt (by omega)
    rw [hk262, stepPure_line _ k (by omega)]
    by_cases hwin : 51 ≤ k ∧ k < 251
    · rw [if_pos hwin, ← Function.iterate_add_apply]
      have hcnt : 320 + 320 * (min k 251 - min k 51) =
          320 * (min (k + 1) 251 - min (k + 1) 51) := by omega
      rw [hcnt]
    · rw [if_neg hwin]
      have hcnt : 320 * (min k 251 - min k 51) =
          320 * (min (k + 1) 251 - min (k + 1) 51) := by omega
      rw [hcnt]

/-! ### Successful runs are pure iterations -/

lemma ticksOk_stepPure (gm cm : Mem) : ∀ (n : Nat) (v vf : Vic),
    ticksOk gm cm n v = .ok vf → vf = stepPure^[n] v := by
  intro n
  induction n with
  | zero =>
    intro v vf h
    obtain rfl : v = vf := Except.ok.injEq _ _ ▸ h
    rfl
  | succ n ih =>
    intro v vf h
    rw [ticksOk_succ] at h
    rcases ht : tick gm cm v with ⟨v', r⟩
    rw [ht] at h
    cases r with
    | error e => simp at h
    | ok o =>
      dsimp only at h
      obtain ⟨hv', -, -⟩ := tick_ok_step gm cm v v' o ht
      subst hv'
      rw [ih _ _ h, ← Function.iterate_succ_apply]

/-- C5: after exactly `RASTER_LENGTH * TOTAL_HEIGHT = 520 * 262` successful
ticks from construction, the character-scan cursor fields are back at
`(graphics_row = 0, graphics_column = 0, character_offset = 0,
pixel_mask = most-significant bit)`. -/
theorem cursor_frame_roundtrip (gm cm : Mem) (v : Vic)
    (h : ticksOk gm cm (520 * 262) Vic.new = .ok v) :
    v.graphics_row = 0 ∧ v.graphics_column = 0 ∧ v.character_offset = 0 ∧
      v.graphics_mask = 128 := by
  have hv := ticksOk_stepPure gm cm (520 * 262) Vic.new v h
  have hframe := stepPure_frame 262 (le_refl 262)
  rw [show 320 * (min 262 251 - min 262 51) = 64000 by norm_num,
    cursorCycle] at hframe
  rw [hframe] at hv
  subst hv
  exact ⟨rfl, rfl, rfl, rfl⟩

/-- Against backends that successfully read every address as zero, every run
of ticks succeeds. -/
lemma ticks_always_ok : ∀ (n : Nat) (v : Vic), ∃ vf,
    ticksOk (fun _ => some 0) (fun _ => some 0) n v = .ok vf := by
  intro n
  induction n with
  | zero => intro v; exact ⟨v, rfl⟩
  | succ n ih =>
    intro v
    by_cases hw : (51 ≤ v.raster_counter ∧ v.raster_counter < 251) ∧
        (124 ≤ v.x_counter ∧ v.x_counter < 444)
    · have hb : background_tick (fun _ => some 0) (fun _ => some 0) v =
          (advanceGraphics v, .ok v.reg_background_color) :=
        background_tick_ok_bg _ _ v 0 0 rfl rfl (by simp)
      have ht := tick_eq_inWindow (fun _ => some 0) (fun _ => some 0) v
        hw.1.1 hw.1.2 hw.2.1 hw.2.2
      rw [hb] at ht
      dsimp only at ht
      obtain ⟨vf, hf⟩ := ih (advanceRaster (advanceGraphics v))
      refine ⟨vf, ?_⟩
      rw [ticksOk_succ, ht]
      exact hf
    · have ht := tick_eq_outWindow (fun _ => some 0) (fun _ => some 0) v hw
      obtain ⟨vf, hf⟩ := ih (advanceRaster v)
      refine ⟨vf, ?_⟩
      rw [ticksOk_succ, ht]
      exact hf

/-- Witness for C5: against all-zero backends the full frame of ticks
succeeds, and the final cursor state is the initial one. -/
theorem cursor_frame_roundtrip_witness :
    ∃ v : Vic, ticksOk (fun _ => some 0) (fun _ => some 0) (520 * 262) Vic.new = .ok v ∧
      v.graphics_row = 0 ∧ v.graphics_column = 0 ∧ v.character_offset = 0 ∧
      v.graphics_mask = 128 := by
  obtain ⟨vf, hf⟩ := ticks_always_ok (520 * 262) Vic.new
  exact ⟨vf, hf, cursor_frame_roundtrip (fun _ => some 0) (fun _ => some 0) vf hf⟩

/-- C4: after `n` successful ticks from construction,
`n ≡ raster_counter * RASTER_LENGTH + x_counter (mod RASTER_LENGTH *
TOTAL_HEIGHT)` with `RASTER_LENGTH = 520` and `TOTAL_HEIGHT = 262`, and every
successful tick reports the pre-advance position in its output (so the first
tick reports `x = 0`, `raster_line = 0`). -/
theorem tick_position_tracking (gm cm : Mem) :
    (∀ (n : Nat) (v : Vic), ticksOk gm cm n Vic.new = .ok v →
      n % (520 * 262) = (v.raster_counter * 520 + v.x_counter) % (520 * 262)) ∧
    (∀ (v v' : Vic) (o : VicOutput), tick gm cm v = (v', .ok o) →
      o.x = v.x_counter ∧ o.raster_line = v.raster_counter) := by
  constructor
  · intro n v h
    obtain ⟨-, -, hpos⟩ := ticksOk_pos gm cm n Vic.new v (by decide) (by decide) h
    unfold posIdx at hpos
    have hnew : Vic.new.raster_counter * 520 + Vic.new.x_counter = 0 := by decide
    rw [hnew] at hpos
    omega
  · intro v v' o h
    exact (tick_ok_step gm cm v v' o h).2

/-- Witness for C4: one successful tick from construction lands on position
index 1. -/
theorem tick_position_tracking_witness :
    1 % (520 * 262) =
      (({ Vic.new with x_counter := 1 } : Vic).raster_counter * 520 +
        ({ Vic.new with x_counter := 1 } : Vic).x_counter) % (520 * 262) :=
  (tick_position_tracking (fun _ => none) (fun _ => none)).1 1
    { Vic.new with x_counter := 1 } rfl

/-- C9: for every raster line number, `raster_line_to_screen_y` returns
exactly `(raster_line + TOTAL_HEIGHT - TOP_BORDER_FIRST_LINE) mod
TOTAL_HEIGHT` with `TOTAL_HEIGHT = 262` and `TOP_BORDER_FIRST_LINE = 41`. -/
theorem raster_line_to_screen_y_spec (raster_line : Nat) :
    raster_line_to_screen_y raster_line = (raster_line + 262 - 41) % 262 := rfl

/-- C8: for every address, a read on the register interface fails and the
error carries that address; no register read ever succeeds. -/
theorem vic_read_always_fails (v : Vic) (address : Nat) :
    Vic.read v address = .error ⟨address⟩ := rfl

/-- C7: a write to `0xD020` stores the value verbatim in `border_color`, a
write to `0xD021` stores the value verbatim in `background_color_0`, and a
write to any other address fails with an unsupported-address error carrying
the address and the value, leaving the whole state (in particular both color
registers) unchanged. -/
theorem vic_write_spec (v : Vic) (value : Nat) :
    Vic.write v 0xD020 value = ({ v with reg_border_color := value }, .ok ()) ∧
    Vic.write v 0xD021 value = ({ v with reg_background_color := value }, .ok ()) ∧
    (∀ address : Nat, address ≠ 0xD020 → address ≠ 0xD021 →
      Vic.write v address value = (v, .error ⟨address, value⟩)) := by
  refine ⟨rfl, rfl, ?_⟩
  intro address h1 h2
  simp [Vic.write, BORDER_COLOR, BACKGROUND_COLOR_0, h1, h2]

/-- Witness for C7 at the boundary address `0xD022` from the spec: the write
fails with the unsupported-address error and the state is untouched. -/
theorem vic_write_spec_witness :
    Vic.write Vic.new 0xD022 5 = (Vic.new, .error ⟨0xD022, 5⟩) :=
  (vic_write_spec Vic.new 5).2.2 0xD022 (by decide) (by decide)

end VicEmu
